import Mathlib

/-!
Shallow embedding of the power-state reconciliation subsystem of the
terraform-provider-redfish repository.

Two generations of the power driver exist in the sources and both are
embedded here:

* namespace `RedfishPkg` — the sdk-v2 version (package `redfish`):
  `getSystemResource` and `PowerOperation` returning
  `(redfish.PowerState, diag.Diagnostics)`.
* namespace `Provider` — the plugin-framework version (package `provider`):
  `getSystemResource`, the method `powerOperator.PowerOperation` returning
  `(redfish.PowerState, error)`, and `checkServerStatus`.

The remote service is modelled as an oracle (`Service`): the result of the
initial `service.Systems()` call, the outcome of `system.Reset` as a function
of the issued reset type, and the result of each in-loop re-fetch.  Go's
`nil` pointer returned by a failed `getSystemResource` is an `Option` that is
`none`; reading the `PowerState` field of a `none` handle is a nil-pointer
dereference and is modelled by the `ExecResult.crash` outcome.  The poll loop
is given explicit fuel; `ExecResult.nofuel` marks an execution that is still
inside the loop after `fuel` iterations, so a run that yields `nofuel` for
every fuel is a non-terminating execution.
-/

/-- A Redfish computer system as far as the power subsystem reads it:
only the `PowerState` string field is ever consulted. -/
structure ComputerSystem where
  PowerState : String
deriving DecidableEq

/-- Result of a `service.Systems()` call: a list of systems, or a
transport-level error. -/
inductive SystemsResult where
  | ok (systems : List ComputerSystem)
  | err (msg : String)
deriving DecidableEq

/-- Side effects of one `PowerOperation` call: the reset types issued via
`system.Reset`, in order, and the number of poll-loop iterations entered
(each iteration performs one sleep and one re-fetch). -/
structure Trace where
  resets : List String
  pollIters : Nat
deriving DecidableEq

/-- Outcome of running the Go function: a normal return carrying the power
state and the returned error value (`none` = Go `nil`), a runtime crash
(nil-pointer dereference), or fuel exhaustion inside the poll loop. -/
inductive ExecResult where
  | ret (state : String) (error : Option String) (tr : Trace)
  | crash (tr : Trace)
  | nofuel (tr : Trace)
deriving DecidableEq

/-- The side-effect trace of an outcome. -/
def ExecResult.trace : ExecResult → Trace
  | .ret _ _ tr => tr
  | .crash tr => tr
  | .nofuel tr => tr

/-- The straight-line prefix of `PowerOperation` (the chain of `if`
statements on `resetType`) either returns early or proceeds to
`system.Reset` with an issued reset type and a computed target state. -/
inductive Plan where
  | early (state : String)
  | proceed (issuedResetType : String) (targetPowerState : String)
deriving DecidableEq

/-- Oracle for the remote server a `PowerOperation` call talks to:
`systems0` is the result of the initial `service.Systems()`, `reset rt` the
outcome of `system.Reset(rt)` (`none` = nil error), and `polls k` the result
of the k-th in-loop `service.Systems()` re-fetch. -/
structure Service where
  systems0 : SystemsResult
  reset : String → Option String
  polls : Nat → SystemsResult

namespace Provider

/-- `getSystemResource` (provider package): the first element of
`service.Systems()`, or a nil handle together with an error when the call
fails or reports zero systems.  The pair mirrors the Go
`(*redfish.ComputerSystem, error)` return. -/
def getSystemResource : SystemsResult → Option ComputerSystem × Option String
  | .err m => (none, some m)
  | .ok [] => (none, some "no computer systems found")
  | .ok (s :: _) => (some s, none)

/-- The sequential `if` chain of `powerOperator.PowerOperation` that decides
the short-circuit returns, the issued reset type (rewritten to `On` for a
restart of a powered-off machine) and `targetPowerState`.  `targetPowerState`
starts as the Go zero value `""` and is only changed where the source
assigns it; in particular the restart branch assigns it only in its `else`
arm (current state not `Off`). -/
def computePlan (resetType ps : String) : Plan :=
  if (resetType = "ForceOff" ∨ resetType = "GracefulShutdown") ∧ ps = "Off" then
    Plan.early "Off"
  else if (resetType = "On" ∨ resetType = "ForceOn") ∧ ps = "On" then
    Plan.early "On"
  else
    let target1 : String :=
      if resetType = "ForceOff" ∨ resetType = "GracefulShutdown" then "Off" else ""
    let target2 : String :=
      if resetType = "On" ∨ resetType = "ForceOn" then "On" else target1
    let rt1 : String :=
      if (resetType = "ForceRestart" ∨ resetType = "GracefulRestart" ∨
          resetType = "PowerCycle" ∨ resetType = "Nmi") ∧ ps = "Off"
      then "On" else resetType
    let target3 : String :=
      if (resetType = "ForceRestart" ∨ resetType = "GracefulRestart" ∨
          resetType = "PowerCycle" ∨ resetType = "Nmi") ∧ ¬ ps = "Off"
      then "On" else target2
    let target4 : String :=
      if rt1 = "PushPowerButton" then (if ps = "Off" then "On" else "Off")
      else target3
    Plan.proceed rt1 target4

/-- The poll loop of `powerOperator.PowerOperation`.  `outerPowerState` is
the `PowerState` of the handle fetched before the reset was issued: the
loop's own `system, err := ...` shadows that variable, so the timeout exit
returns `outerPowerState`.  A failed re-fetch returns `targetPowerState`
together with the error.  One unit of fuel is consumed per iteration
entered. -/
def pollLoop (targetPowerState : String) (maximumWaitTime checkInterval : Int)
    (polls : Nat → SystemsResult) (outerPowerState : String)
    (issued : List String) (totalTime : Int) (k : Nat) (fuel : Nat) :
    ExecResult :=
  if totalTime < maximumWaitTime then
    match fuel with
    | 0 => ExecResult.nofuel ⟨issued, k⟩
    | fuel' + 1 =>
      match getSystemResource (polls k) with
      | (_, some e) => ExecResult.ret targetPowerState (some e) ⟨issued, k + 1⟩
      | (some s, none) =>
        if s.PowerState = targetPowerState then
          ExecResult.ret s.PowerState none ⟨issued, k + 1⟩
        else
          pollLoop targetPowerState maximumWaitTime checkInterval polls
            outerPowerState issued (totalTime + checkInterval) (k + 1) fuel'
      | (none, none) => ExecResult.crash ⟨issued, k + 1⟩
  else
    ExecResult.ret outerPowerState none ⟨issued, k⟩

/-- `powerOperator.PowerOperation` (provider package): fetch the system,
decide the plan, issue the reset, then poll.  A failing initial fetch
returns `""` with the wrapped error; a failing `system.Reset` returns the
pre-operation power state with the error and never enters the loop. -/
def PowerOperation (p : Service) (resetType : String)
    (maximumWaitTime checkInterval : Int) (fuel : Nat) : ExecResult :=
  match getSystemResource p.systems0 with
  | (_, some e) =>
      ExecResult.ret "" (some ("failed to identify system: " ++ e)) ⟨[], 0⟩
  | (some system, none) =>
    match computePlan resetType system.PowerState with
    | Plan.early st => ExecResult.ret st none ⟨[], 0⟩
    | Plan.proceed rt1 target =>
      match p.reset rt1 with
      | some e => ExecResult.ret system.PowerState (some e) ⟨[rt1], 0⟩
      | none =>
          pollLoop target maximumWaitTime checkInterval p.polls
            system.PowerState [rt1] 0 0 fuel
  | (none, none) => ExecResult.crash ⟨[], 0⟩

/-- Environment of one `checkServerStatus` call: the `url.Parse` outcome,
the wall-clock reading `time.Since(start)` (in seconds) observed at the k-th
loop-condition check — `start` is taken after the fixed 30-second grace
sleep, and the probe interval only paces this clock — and the outcome of the
k-th `net.Dial` probe (`none` = reachable). -/
structure ProbeEnv where
  parseErr : Option String
  clock : Nat → Int
  probes : Nat → Option String

/-- The probe loop of `checkServerStatus`: while the clock reads below the
timeout, sleep, dial, return nil on the first success, and remember the
last dial error; on loop exit return the last value of `err`. -/
def checkLoop (timeout : Int) (clock : Nat → Int)
    (probes : Nat → Option String) (lastErr : Option String) (k : Nat)
    (fuel : Nat) : Option (Option String) :=
  if clock k < timeout then
    match fuel with
    | 0 => none
    | fuel' + 1 =>
      match probes k with
      | none => some none
      | some e => checkLoop timeout clock probes (some e) (k + 1) fuel'
  else
    some lastErr

/-- `checkServerStatus` (provider package): a `url.Parse` failure is
returned at once; otherwise `err` is nil going into the loop, so a loop
that never runs returns nil.  `interval` only paces the abstract clock. -/
def checkServerStatus (env : ProbeEnv) (interval timeout : Int)
    (fuel : Nat) : Option (Option String) :=
  match env.parseErr with
  | some e => some (some e)
  | none => checkLoop timeout env.clock env.probes none 0 fuel

end Provider

namespace RedfishPkg

/-- `getSystemResource` (redfish package): identical to the provider version
up to the error message. -/
def getSystemResource : SystemsResult → Option ComputerSystem × Option String
  | .err m => (none, some m)
  | .ok [] => (none, some "No computer systems found")
  | .ok (s :: _) => (some s, none)

/-- The `if` chain of the redfish-package `PowerOperation`: no `Nmi` in the
restart list, no `PushPowerButton` case, and the restart branch assigns
`targetPowerState = "On"` unconditionally (outside the inner `if`). -/
def computePlan (resetType ps : String) : Plan :=
  if (resetType = "ForceOff" ∨ resetType = "GracefulShutdown") ∧ ps = "Off" then
    Plan.early "Off"
  else if (resetType = "On" ∨ resetType = "ForceOn") ∧ ps = "On" then
    Plan.early "On"
  else
    let target1 : String :=
      if resetType = "ForceOff" ∨ resetType = "GracefulShutdown" then "Off" else ""
    let target2 : String :=
      if resetType = "On" ∨ resetType = "ForceOn" then "On" else target1
    let rt1 : String :=
      if (resetType = "ForceRestart" ∨ resetType = "GracefulRestart" ∨
          resetType = "PowerCycle") ∧ ps = "Off"
      then "On" else resetType
    let target3 : String :=
      if resetType = "ForceRestart" ∨ resetType = "GracefulRestart" ∨
         resetType = "PowerCycle"
      then "On" else target2
    Plan.proceed rt1 target3

/-- The poll loop of the redfish-package `PowerOperation`.  Its failed
re-fetch branch returns `system.PowerState` read from the loop-local
(shadowing) `system` variable — the very handle the failed
`getSystemResource` produced, which is nil whenever the error is non-nil —
so that branch dereferences a nil pointer: `ExecResult.crash`. -/
def pollLoop (targetPowerState : String) (maximumWaitTime checkInterval : Int)
    (polls : Nat → SystemsResult) (outerPowerState : String)
    (issued : List String) (totalTime : Int) (k : Nat) (fuel : Nat) :
    ExecResult :=
  if totalTime < maximumWaitTime then
    match fuel with
    | 0 => ExecResult.nofuel ⟨issued, k⟩
    | fuel' + 1 =>
      match getSystemResource (polls k) with
      | (some s, some e) => ExecResult.ret s.PowerState (some e) ⟨issued, k + 1⟩
      | (none, some _) => ExecResult.crash ⟨issued, k + 1⟩
      | (some s, none) =>
        if s.PowerState = targetPowerState then
          ExecResult.ret s.PowerState none ⟨issued, k + 1⟩
        else
          pollLoop targetPowerState maximumWaitTime checkInterval polls
            outerPowerState issued (totalTime + checkInterval) (k + 1) fuel'
      | (none, none) => ExecResult.crash ⟨issued, k + 1⟩
  else
    ExecResult.ret outerPowerState none ⟨issued, k⟩

/-- `PowerOperation` (redfish package). -/
def PowerOperation (p : Service) (resetType : String)
    (maximumWaitTime checkInterval : Int) (fuel : Nat) : ExecResult :=
  match getSystemResource p.systems0 with
  | (_, some e) => ExecResult.ret "" (some e) ⟨[], 0⟩
  | (some system, none) =>
    match computePlan resetType system.PowerState with
    | Plan.early st => ExecResult.ret st none ⟨[], 0⟩
    | Plan.proceed rt1 target =>
      match p.reset rt1 with
      | some e => ExecResult.ret system.PowerState (some e) ⟨[rt1], 0⟩
      | none =>
          pollLoop target maximumWaitTime checkInterval p.polls
            system.PowerState [rt1] 0 0 fuel
  | (none, none) => ExecResult.crash ⟨[], 0⟩

end RedfishPkg

/-- Ceiling of `maximumWaitTime / checkInterval` computed on the natural
projections; for `checkInterval ≥ 1` this is the number of iterations after
which `totalTime`, growing by `checkInterval` from 0, first reaches
`maximumWaitTime`. -/
def iterBound (maximumWaitTime checkInterval : Int) : Nat :=
  (maximumWaitTime.toNat + checkInterval.toNat - 1) / checkInterval.toNat

namespace Provider

lemma pollLoop_exit (tgt : String) (mwt ci : Int) (polls : Nat → SystemsResult)
    (outer : String) (issued : List String) (totalTime : Int) (k fuel : Nat)
    (h : ¬ totalTime < mwt) :
    pollLoop tgt mwt ci polls outer issued totalTime k fuel
      = ExecResult.ret outer none ⟨issued, k⟩ := by
  conv_lhs => rw [pollLoop.eq_def]
  rw [if_neg h]

lemma pollLoop_step_err (tgt : String) (mwt ci : Int) (polls : Nat → SystemsResult)
    (outer : String) (issued : List String) (totalTime : Int) (k fuel' : Nat)
    (h : totalTime < mwt) (o : Option ComputerSystem) (e : String)
    (hg : getSystemResource (polls k) = (o, some e)) :
    pollLoop tgt mwt ci polls outer issued totalTime k (fuel' + 1)
      = ExecResult.ret tgt (some e) ⟨issued, k + 1⟩ := by
  conv_lhs => rw [pollLoop.eq_def]
  rw [if_pos h, hg]
  cases o <;> rfl

lemma pollLoop_step_conv (tgt : String) (mwt ci : Int) (polls : Nat → SystemsResult)
    (outer : String) (issued : List String) (totalTime : Int) (k fuel' : Nat)
    (h : totalTime < mwt) (s : ComputerSystem)
    (hg : getSystemResource (polls k) = (some s, none))
    (hs : s.PowerState = tgt) :
    pollLoop tgt mwt ci polls outer issued totalTime k (fuel' + 1)
      = ExecResult.ret s.PowerState none ⟨issued, k + 1⟩ := by
  conv_lhs => rw [pollLoop.eq_def]
  rw [if_pos h, hg]
  simp only [hs, if_true]

lemma pollLoop_step_next (tgt : String) (mwt ci : Int) (polls : Nat → SystemsResult)
    (outer : String) (issued : List String) (totalTime : Int) (k fuel' : Nat)
    (h : totalTime < mwt) (s : ComputerSystem)
    (hg : getSystemResource (polls k) = (some s, none))
    (hne : ¬ s.PowerState = tgt) :
    pollLoop tgt mwt ci polls outer issued totalTime k (fuel' + 1)
      = pollLoop tgt mwt ci polls outer issued (totalTime + ci) (k + 1) fuel' := by
  conv_lhs => rw [pollLoop.eq_def]
  rw [if_pos h, hg]
  simp only [hne, if_false]

lemma pollLoop_step_nil (tgt : String) (mwt ci : Int) (polls : Nat → SystemsResult)
    (outer : String) (issued : List String) (totalTime : Int) (k fuel' : Nat)
    (h : totalTime < mwt)
    (hg : getSystemResource (polls k) = (none, none)) :
    pollLoop tgt mwt ci polls outer issued totalTime k (fuel' + 1)
      = ExecResult.crash ⟨issued, k + 1⟩ := by
  conv_lhs => rw [pollLoop.eq_def]
  rw [if_pos h, hg]

lemma pollLoop_nofuel_now (tgt : String) (mwt ci : Int) (polls : Nat → SystemsResult)
    (outer : String) (issued : List String) (totalTime : Int) (k : Nat)
    (h : totalTime < mwt) :
    pollLoop tgt mwt ci polls outer issued totalTime k 0
      = ExecResult.nofuel ⟨issued, k⟩ := by
  conv_lhs => rw [pollLoop.eq_def]
  rw [if_pos h]

/-- With fuel at least covering the remaining wait budget, the poll loop
never runs out of fuel: every iteration either returns or strictly adds
`checkInterval` to `totalTime`. -/
lemma pollLoop_not_nofuel (tgt : String) (mwt ci : Int) (polls : Nat → SystemsResult)
    (outer : String) (issued : List String) :
    ∀ (fuel : Nat) (totalTime : Int) (k : Nat),
      mwt ≤ totalTime + (fuel : Int) * ci →
      ∀ tr, pollLoop tgt mwt ci polls outer issued totalTime k fuel
        ≠ ExecResult.nofuel tr := by
  intro fuel
  induction fuel with
  | zero =>
    intro totalTime k h tr
    have hc : ¬ totalTime < mwt := by push_cast at h; omega
    rw [pollLoop_exit tgt mwt ci polls outer issued totalTime k 0 hc]
    simp
  | succ n ih =>
    intro totalTime k h tr
    by_cases hc : totalTime < mwt
    · rcases hg : getSystemResource (polls k) with ⟨sysOpt, errOpt⟩
      cases errOpt with
      | some e =>
        rw [pollLoop_step_err tgt mwt ci polls outer issued totalTime k n hc sysOpt e hg]
        simp
      | none =>
        cases sysOpt with
        | none =>
          rw [pollLoop_step_nil tgt mwt ci polls outer issued totalTime k n hc hg]
          simp
        | some s =>
          by_cases hs : s.PowerState = tgt
          · rw [pollLoop_step_conv tgt mwt ci polls outer issued totalTime k n hc s hg hs]
            simp
          · rw [pollLoop_step_next tgt mwt ci polls outer issued totalTime k n hc s hg hs]
            apply ih
            have he : ((n : Int) + 1) * ci = (n : Int) * ci + ci := by ring
            push_cast at h
            linarith [h, he.symm.le]
    · rw [pollLoop_exit tgt mwt ci polls outer issued totalTime k (n + 1) hc]
      simp

/-- Whatever the loop's exit, the issued-resets component of the trace is
the list it was entered with: the loop issues no reset. -/
lemma pollLoop_resets (tgt : String) (mwt ci : Int) (polls : Nat → SystemsResult)
    (outer : String) (issued : List String) :
    ∀ (fuel : Nat) (totalTime : Int) (k : Nat),
      (pollLoop tgt mwt ci polls outer issued totalTime k fuel).trace.resets
        = issued := by
  intro fuel
  induction fuel with
  | zero =>
    intro totalTime k
    by_cases hc : totalTime < mwt
    · rw [pollLoop_nofuel_now tgt mwt ci polls outer issued totalTime k hc]
      rfl
    · rw [pollLoop_exit tgt mwt ci polls outer issued totalTime k 0 hc]
      rfl
  | succ n ih =>
    intro totalTime k
    by_cases hc : totalTime < mwt
    · rcases hg : getSystemResource (polls k) with ⟨sysOpt, errOpt⟩
      cases errOpt with
      | some e =>
        rw [pollLoop_step_err tgt mwt ci polls outer issued totalTime k n hc sysOpt e hg]
        rfl
      | none =>
        cases sysOpt with
        | none =>
          rw [pollLoop_step_nil tgt mwt ci polls outer issued totalTime k n hc hg]
          rfl
        | some s =>
          by_cases hs : s.PowerState = tgt
          · rw [pollLoop_step_conv tgt mwt ci polls outer issued totalTime k n hc s hg hs]
            rfl
          · rw [pollLoop_step_next tgt mwt ci polls outer issued totalTime k n hc s hg hs]
            exact ih (totalTime + ci) (k + 1)
    · rw [pollLoop_exit tgt mwt ci polls outer issued totalTime k (n + 1) hc]
      rfl

end Provider

namespace Provider

/-- Running the loop through `j` iterations that each observe a healthy
system in a non-target state advances `totalTime` by `j * checkInterval`
and the poll index by `j`. -/
lemma pollLoop_advance (tgt : String) (mwt ci : Int) (polls : Nat → SystemsResult)
    (outer : String) (issued : List String) :
    ∀ (j : Nat) (totalTime : Int) (k fuel : Nat),
      (∀ i, i < j → ∃ s l, polls (k + i) = SystemsResult.ok (s :: l)
          ∧ s.PowerState ≠ tgt) →
      (∀ i, i < j → totalTime + (i : Int) * ci < mwt) →
      pollLoop tgt mwt ci polls outer issued totalTime k (fuel + j)
        = pollLoop tgt mwt ci polls outer issued
            (totalTime + (j : Int) * ci) (k + j) fuel := by
  intro j
  induction j with
  | zero =>
    intro totalTime k fuel _ _
    norm_num
  | succ n ih =>
    intro totalTime k fuel hok hcond
    have hc : totalTime < mwt := by
      have h0 := hcond 0 (by omega)
      simpa using h0
    obtain ⟨s, l, hpoll, hne⟩ := hok 0 (by omega)
    have hpoll' : getSystemResource (polls k) = (some s, none) := by
      have : polls (k + 0) = polls k := by norm_num
      rw [this] at hpoll
      rw [hpoll]
      rfl
    have hstep := pollLoop_step_next tgt mwt ci polls outer issued totalTime k
      (fuel + n) hc s hpoll' hne
    have hfe : fuel + (n + 1) = (fuel + n) + 1 := by omega
    rw [hfe, hstep]
    have hrec := ih (totalTime + ci) (k + 1) fuel
      (by
        intro i hi
        have := hok (i + 1) (by omega)
        have harg : k + (i + 1) = k + 1 + i := by omega
        rw [harg] at this
        exact this)
      (by
        intro i hi
        have := hcond (i + 1) (by omega)
        have harg : totalTime + ((i : Int) + 1) * ci
            = totalTime + ci + (i : Int) * ci := by ring
        push_cast at this ⊢
        linarith [harg ▸ this])
    rw [hrec]
    have e1 : totalTime + ci + (n : Int) * ci
        = totalTime + ((n : Int) + 1) * ci := by ring
    have e2 : k + 1 + n = k + (n + 1) := by omega
    rw [e1, e2]
    push_cast
    ring_nf

/-- If every re-fetch observes a healthy system in a non-target state, the
loop exhausts the wait budget and returns the outer (pre-operation) power
state with a nil error. -/
lemma pollLoop_timeout (tgt : String) (mwt ci : Int) (polls : Nat → SystemsResult)
    (outer : String) (issued : List String)
    (hnt : ∀ i, ∃ s l, polls i = SystemsResult.ok (s :: l) ∧ s.PowerState ≠ tgt) :
    ∀ (fuel : Nat) (totalTime : Int) (k : Nat),
      mwt ≤ totalTime + (fuel : Int) * ci →
      ∃ kk, pollLoop tgt mwt ci polls outer issued totalTime k fuel
        = ExecResult.ret outer none ⟨issued, kk⟩ := by
  intro fuel
  induction fuel with
  | zero =>
    intro totalTime k h
    have hc : ¬ totalTime < mwt := by push_cast at h; omega
    exact ⟨k, pollLoop_exit tgt mwt ci polls outer issued totalTime k 0 hc⟩
  | succ n ih =>
    intro totalTime k h
    by_cases hc : totalTime < mwt
    · obtain ⟨s, l, hpoll, hne⟩ := hnt k
      have hpoll' : getSystemResource (polls k) = (some s, none) := by
        rw [hpoll]; rfl
      rw [pollLoop_step_next tgt mwt ci polls outer issued totalTime k n hc s hpoll' hne]
      apply ih
      have he : ((n : Int) + 1) * ci = (n : Int) * ci + ci := by ring
      push_cast at h
      linarith [he.symm.le]
    · exact ⟨k, pollLoop_exit tgt mwt ci polls outer issued totalTime k (n + 1) hc⟩

/-- With `checkInterval = 0`, `totalTime` never increases, so a loop in
which every re-fetch observes a healthy non-target state consumes every
unit of fuel: the loop never terminates. -/
lemma pollLoop_zero_interval (tgt : String) (mwt : Int) (polls : Nat → SystemsResult)
    (outer : String) (issued : List String)
    (hnt : ∀ i, ∃ s l, polls i = SystemsResult.ok (s :: l) ∧ s.PowerState ≠ tgt) :
    ∀ (fuel k : Nat) (totalTime : Int), totalTime < mwt →
      pollLoop tgt mwt 0 polls outer issued totalTime k fuel
        = ExecResult.nofuel ⟨issued, k + fuel⟩ := by
  intro fuel
  induction fuel with
  | zero =>
    intro k totalTime hc
    rw [pollLoop_nofuel_now tgt mwt 0 polls outer issued totalTime k hc]
    rfl
  | succ n ih =>
    intro k totalTime hc
    obtain ⟨s, l, hpoll, hne⟩ := hnt k
    have hpoll' : getSystemResource (polls k) = (some s, none) := by
      rw [hpoll]; rfl
    rw [pollLoop_step_next tgt mwt 0 polls outer issued totalTime k n hc s hpoll' hne]
    rw [add_zero]
    rw [ih (k + 1) totalTime hc]
    have : k + 1 + n = k + (n + 1) := by omega
    rw [this]

/-- Unfolding of `PowerOperation` when the initial fetch succeeds. -/
lemma PowerOperation_fetch_ok (p : Service) (resetType : String)
    (mwt ci : Int) (fuel : Nat) (sys : ComputerSystem)
    (hfetch : getSystemResource p.systems0 = (some sys, none)) :
    PowerOperation p resetType mwt ci fuel =
      match computePlan resetType sys.PowerState with
      | Plan.early st => ExecResult.ret st none ⟨[], 0⟩
      | Plan.proceed rt1 target =>
        match p.reset rt1 with
        | some e => ExecResult.ret sys.PowerState (some e) ⟨[rt1], 0⟩
        | none =>
            pollLoop target mwt ci p.polls sys.PowerState [rt1] 0 0 fuel := by
  unfold PowerOperation
  rw [hfetch]

end Provider

namespace Provider

lemma checkLoop_exit (timeout : Int) (clock : Nat → Int)
    (probes : Nat → Option String) (lastErr : Option String) (k fuel : Nat)
    (h : ¬ clock k < timeout) :
    checkLoop timeout clock probes lastErr k fuel = some lastErr := by
  conv_lhs => rw [checkLoop.eq_def]
  rw [if_neg h]

lemma checkLoop_step_success (timeout : Int) (clock : Nat → Int)
    (probes : Nat → Option String) (lastErr : Option String) (k fuel' : Nat)
    (h : clock k < timeout) (hp : probes k = none) :
    checkLoop timeout clock probes lastErr k (fuel' + 1) = some none := by
  conv_lhs => rw [checkLoop.eq_def]
  rw [if_pos h, hp]

lemma checkLoop_step_fail (timeout : Int) (clock : Nat → Int)
    (probes : Nat → Option String) (lastErr : Option String) (k fuel' : Nat)
    (e : String) (h : clock k < timeout) (hp : probes k = some e) :
    checkLoop timeout clock probes lastErr k (fuel' + 1)
      = checkLoop timeout clock probes (some e) (k + 1) fuel' := by
  conv_lhs => rw [checkLoop.eq_def]
  rw [if_pos h, hp]

/-- The probe loop returns nil on the first successful probe. -/
lemma checkLoop_first_success (timeout : Int) (clock : Nat → Int)
    (probes : Nat → Option String) :
    ∀ (j k fuel : Nat) (lastErr : Option String),
      (∀ i, i < j → clock (k + i) < timeout ∧ ∃ e, probes (k + i) = some e) →
      clock (k + j) < timeout → probes (k + j) = none → j < fuel →
      checkLoop timeout clock probes lastErr k fuel = some none := by
  intro j
  induction j with
  | zero =>
    intro k fuel lastErr _ hcl hp hfuel
    obtain ⟨m, rfl⟩ : ∃ m, fuel = m + 1 := ⟨fuel - 1, by omega⟩
    rw [Nat.add_zero] at hcl hp
    exact checkLoop_step_success timeout clock probes lastErr k m hcl hp
  | succ n ih =>
    intro k fuel lastErr hfail hcl hp hfuel
    obtain ⟨m, rfl⟩ : ∃ m, fuel = m + 1 := ⟨fuel - 1, by omega⟩
    obtain ⟨hcl0, e, hp0⟩ := by
      have := hfail 0 (by omega)
      rwa [Nat.add_zero] at this
    rw [checkLoop_step_fail timeout clock probes lastErr k m e hcl0 hp0]
    apply ih (k + 1) m (some e)
    · intro i hi
      have := hfail (i + 1) (by omega)
      have harg : k + (i + 1) = k + 1 + i := by omega
      rwa [harg] at this
    · have harg : k + (n + 1) = k + 1 + n := by omega
      rwa [harg] at hcl
    · have harg : k + (n + 1) = k + 1 + n := by omega
      rwa [harg] at hp
    · omega

/-- If every probe before the deadline fails, the loop exit returns the
error of the last attempted probe (or the entry value when no probe ran). -/
lemma checkLoop_all_fail (timeout : Int) (clock : Nat → Int)
    (probes : Nat → Option String) (errs : Nat → String) :
    ∀ (j k fuel : Nat) (lastErr : Option String),
      (∀ i, i < j → clock (k + i) < timeout ∧ probes (k + i) = some (errs (k + i))) →
      ¬ clock (k + j) < timeout → j ≤ fuel →
      checkLoop timeout clock probes lastErr k fuel
        = some (if j = 0 then lastErr else some (errs (k + j - 1))) := by
  intro j
  induction j with
  | zero =>
    intro k fuel lastErr _ hcl _
    rw [Nat.add_zero] at hcl
    rw [checkLoop_exit timeout clock probes lastErr k fuel hcl]
    simp
  | succ n ih =>
    intro k fuel lastErr hfail hcl hfuel
    obtain ⟨m, rfl⟩ : ∃ m, fuel = m + 1 := ⟨fuel - 1, by omega⟩
    obtain ⟨hcl0, hp0⟩ := by
      have := hfail 0 (by omega)
      rwa [Nat.add_zero] at this
    rw [checkLoop_step_fail timeout clock probes lastErr k m (errs k) hcl0 hp0]
    have hrec := ih (k + 1) m (some (errs k))
      (by
        intro i hi
        have := hfail (i + 1) (by omega)
        have harg : k + (i + 1) = k + 1 + i := by omega
        rwa [harg] at this)
      (by
        have harg : k + (n + 1) = k + 1 + n := by omega
        rwa [harg] at hcl)
      (by omega)
    rw [hrec]
    rcases Nat.eq_zero_or_pos n with rfl | hn
    · simp
    · have h1 : ¬ n = 0 := by omega
      have h2 : ¬ n + 1 = 0 := by omega
      simp only [h1, h2, if_false]
      have harg : k + 1 + n - 1 = k + (n + 1) - 1 := by omega
      rw [harg]

end Provider

/-- For `1 ≤ c`, `(m + c - 1) / c` is the ceiling of `m / c`:
`c` times it is at least `m`. -/
lemma nat_ceil_mul_ge (m c : Nat) (hc : 1 ≤ c) : m ≤ (m + c - 1) / c * c := by
  rw [Nat.mul_comm]
  have h := Nat.div_add_mod (m + c - 1) c
  have hmod := Nat.mod_lt (m + c - 1) (show 0 < c by omega)
  generalize hX : c * ((m + c - 1) / c) = X at h ⊢
  generalize hR : (m + c - 1) % c = R at h hmod
  omega

/-- `iterBound` bounds the wait budget: `iterBound mwt ci` iterations of
adding `ci` starting from 0 reach at least `mwt` (for `ci ≥ 1`). -/
lemma le_iterBound_mul (mwt ci : Int) (hci : 1 ≤ ci) :
    mwt ≤ (iterBound mwt ci : Int) * ci := by
  rcases le_or_lt mwt 0 with hm | hm
  · have h1 : (0 : Int) ≤ (iterBound mwt ci : Int) * ci :=
      mul_nonneg (Nat.cast_nonneg _) (by linarith)
    linarith
  · have hc1 : 1 ≤ ci.toNat := by omega
    have hnat := nat_ceil_mul_ge mwt.toNat ci.toNat hc1
    have hm' : ((mwt.toNat : Nat) : Int) = mwt := Int.toNat_of_nonneg (le_of_lt hm)
    have hc' : ((ci.toNat : Nat) : Int) = ci := Int.toNat_of_nonneg (by linarith)
    unfold iterBound
    calc mwt = ((mwt.toNat : Nat) : Int) := hm'.symm
    _ ≤ (((mwt.toNat + ci.toNat - 1) / ci.toNat * ci.toNat : Nat) : Int) :=
        Nat.cast_le.mpr hnat
    _ = (((mwt.toNat + ci.toNat - 1) / ci.toNat : Nat) : Int) * ((ci.toNat : Nat) : Int) := by
        push_cast
        ring
    _ = (((mwt.toNat + ci.toNat - 1) / ci.toNat : Nat) : Int) * ci := by rw [hc']

namespace Provider

/-- Unfolding of `PowerOperation` when the initial fetch succeeds and the
`if` chain proceeds to issue a reset. -/
lemma PowerOperation_proceed (p : Service) (resetType : String)
    (mwt ci : Int) (fuel : Nat) (sys : ComputerSystem) (rt1 target : String)
    (hfetch : getSystemResource p.systems0 = (some sys, none))
    (hplan : computePlan resetType sys.PowerState = Plan.proceed rt1 target) :
    PowerOperation p resetType mwt ci fuel =
      match p.reset rt1 with
      | some e => ExecResult.ret sys.PowerState (some e) ⟨[rt1], 0⟩
      | none => pollLoop target mwt ci p.polls sys.PowerState [rt1] 0 0 fuel := by
  rw [PowerOperation_fetch_ok p resetType mwt ci fuel sys hfetch, hplan]

end Provider

/-- C3: when `resetType` is `On`/`ForceOn` and the server is already `On`,
or `resetType` is `ForceOff`/`GracefulShutdown` and the server is already
`Off`, `powerOperator.PowerOperation` returns the current power state
immediately with a nil error, issues zero remote reset calls and performs
zero poll iterations. -/
theorem powerOperation_idempotent_short_circuit (p : Service)
    (resetType : String) (mwt ci : Int) (fuel : Nat) (sys : ComputerSystem)
    (hfetch : Provider.getSystemResource p.systems0 = (some sys, none))
    (h : ((resetType = "On" ∨ resetType = "ForceOn") ∧ sys.PowerState = "On")
       ∨ ((resetType = "ForceOff" ∨ resetType = "GracefulShutdown")
            ∧ sys.PowerState = "Off")) :
    Provider.PowerOperation p resetType mwt ci fuel
      = ExecResult.ret sys.PowerState none ⟨[], 0⟩ := by
  rw [Provider.PowerOperation_fetch_ok p resetType mwt ci fuel sys hfetch]
  rcases h with ⟨hrt, hps⟩ | ⟨hrt, hps⟩ <;> rw [hps] <;>
    rcases hrt with rfl | rfl <;> rfl

/-- C3 witness. -/
theorem powerOperation_idempotent_short_circuit_witness :
    Provider.PowerOperation
        ⟨SystemsResult.ok [⟨"On"⟩], fun _ => none,
          fun _ => SystemsResult.ok [⟨"On"⟩]⟩ "On" 10 1 5
      = ExecResult.ret "On" none ⟨[], 0⟩ :=
  powerOperation_idempotent_short_circuit _ "On" 10 1 5 ⟨"On"⟩ rfl
    (Or.inl ⟨Or.inl rfl, rfl⟩)

/-- C4: when the remote reset call fails, `powerOperator.PowerOperation`
returns the pre-operation power state together with the (non-nil) error and
never enters the poll loop: zero poll iterations in the trace. -/
theorem powerOperation_reset_failure_propagates (p : Service)
    (resetType : String) (mwt ci : Int) (fuel : Nat) (sys : ComputerSystem)
    (rt1 target e : String)
    (hfetch : Provider.getSystemResource p.systems0 = (some sys, none))
    (hplan : Provider.computePlan resetType sys.PowerState
      = Plan.proceed rt1 target)
    (hreset : p.reset rt1 = some e) :
    Provider.PowerOperation p resetType mwt ci fuel
      = ExecResult.ret sys.PowerState (some e) ⟨[rt1], 0⟩ := by
  rw [Provider.PowerOperation_proceed p resetType mwt ci fuel sys rt1 target
    hfetch hplan, hreset]

/-- C4 witness. -/
theorem powerOperation_reset_failure_propagates_witness :
    Provider.PowerOperation
        ⟨SystemsResult.ok [⟨"On"⟩], fun _ => some "reset failed",
          fun _ => SystemsResult.ok [⟨"On"⟩]⟩ "ForceOff" 10 1 5
      = ExecResult.ret "On" (some "reset failed") ⟨["ForceOff"], 0⟩ :=
  powerOperation_reset_failure_propagates _ "ForceOff" 10 1 5 ⟨"On"⟩
    "ForceOff" "Off" "reset failed" rfl (by decide) rfl

/-- C5: a failing re-fetch inside a poll iteration makes
`powerOperator.PowerOperation` return a non-nil error right after that
iteration (polling stops immediately), whereas exhausting the wait budget
without convergence returns a nil error: mid-poll fetch failure is fatal
although final timeout is not. -/
theorem powerOperation_midpoll_fatal_timeout_benign :
    (∀ (p : Service) (resetType : String) (mwt ci : Int) (fuel : Nat)
        (sys : ComputerSystem) (rt1 target e : String) (j : Nat),
      Provider.getSystemResource p.systems0 = (some sys, none) →
      Provider.computePlan resetType sys.PowerState = Plan.proceed rt1 target →
      p.reset rt1 = none →
      (∀ i, i < j → ∃ s l, p.polls i = SystemsResult.ok (s :: l)
          ∧ s.PowerState ≠ target) →
      (∀ i, i ≤ j → (i : Int) * ci < mwt) →
      p.polls j = SystemsResult.err e →
      j < fuel →
      Provider.PowerOperation p resetType mwt ci fuel
        = ExecResult.ret target (some e) ⟨[rt1], j + 1⟩)
    ∧
    (∀ (p : Service) (resetType : String) (mwt ci : Int) (fuel : Nat)
        (sys : ComputerSystem) (rt1 target : String),
      Provider.getSystemResource p.systems0 = (some sys, none) →
      Provider.computePlan resetType sys.PowerState = Plan.proceed rt1 target →
      p.reset rt1 = none →
      (∀ i, ∃ s l, p.polls i = SystemsResult.ok (s :: l)
          ∧ s.PowerState ≠ target) →
      mwt ≤ (fuel : Int) * ci →
      ∃ kk, Provider.PowerOperation p resetType mwt ci fuel
        = ExecResult.ret sys.PowerState none ⟨[rt1], kk⟩) := by
  constructor
  · intro p resetType mwt ci fuel sys rt1 target e j hfetch hplan hreset hok
      hcond hj hfuel
    rw [Provider.PowerOperation_proceed p resetType mwt ci fuel sys rt1 target
      hfetch hplan, hreset]
    obtain ⟨m, rfl⟩ : ∃ m, fuel = (m + 1) + j := ⟨fuel - j - 1, by omega⟩
    rw [Provider.pollLoop_advance target mwt ci p.polls sys.PowerState [rt1]
      j 0 0 (m + 1)
      (by intro i hi; simpa using hok i hi)
      (by intro i hi; have := hcond i (by omega); simpa using this)]
    simp only [zero_add, Nat.zero_add]
    have hcj : (j : Int) * ci < mwt := hcond j (le_refl j)
    rw [Provider.pollLoop_step_err target mwt ci p.polls sys.PowerState [rt1]
      ((j : Int) * ci) j m hcj none e (by rw [hj]; rfl)]
  · intro p resetType mwt ci fuel sys rt1 target hfetch hplan hreset hnt hbound
    rw [Provider.PowerOperation_proceed p resetType mwt ci fuel sys rt1 target
      hfetch hplan, hreset]
    have h := Provider.pollLoop_timeout target mwt ci p.polls sys.PowerState
      [rt1] hnt fuel 0 0 (by simpa using hbound)
    simpa using h

/-- C5 witness. -/
theorem powerOperation_midpoll_fatal_timeout_benign_witness :
    (Provider.PowerOperation
        ⟨SystemsResult.ok [⟨"On"⟩], fun _ => none,
          fun _ => SystemsResult.err "boom"⟩ "ForceOff" 5 1 3
      = ExecResult.ret "Off" (some "boom") ⟨["ForceOff"], 1⟩)
    ∧ (∃ kk, Provider.PowerOperation
        ⟨SystemsResult.ok [⟨"On"⟩], fun _ => none,
          fun _ => SystemsResult.ok [⟨"PoweringOff"⟩]⟩ "ForceOff" 2 1 2
      = ExecResult.ret "On" none ⟨["ForceOff"], kk⟩) := by
  constructor
  · exact powerOperation_midpoll_fatal_timeout_benign.1 _ "ForceOff" 5 1 3
      ⟨"On"⟩ "ForceOff" "Off" "boom" 0 rfl (by decide) rfl
      (by intro i hi; exact absurd hi (Nat.not_lt_zero i))
      (by intro i hi; omega)
      rfl (by omega)
  · exact powerOperation_midpoll_fatal_timeout_benign.2 _ "ForceOff" 2 1 2
      ⟨"On"⟩ "ForceOff" "Off" rfl (by decide) rfl
      (fun i => ⟨⟨"PoweringOff"⟩, [], rfl, by decide⟩) (by norm_num)

/-- C6: with `resetType = PushPowerButton`, a server currently `On` gets
issued action `PushPowerButton` with computed target `Off`, and a server
currently `Off` gets computed target `On`: the target is the toggle of the
current state. -/
theorem powerOperation_pushPowerButton_toggle (p : Service)
    (mwt ci : Int) (fuel : Nat) (sys : ComputerSystem)
    (hfetch : Provider.getSystemResource p.systems0 = (some sys, none)) :
    (sys.PowerState = "On" →
      Provider.computePlan "PushPowerButton" sys.PowerState
        = Plan.proceed "PushPowerButton" "Off"
      ∧ (Provider.PowerOperation p "PushPowerButton" mwt ci fuel).trace.resets
          = ["PushPowerButton"])
    ∧ (sys.PowerState = "Off" →
      Provider.computePlan "PushPowerButton" sys.PowerState
        = Plan.proceed "PushPowerButton" "On"
      ∧ (Provider.PowerOperation p "PushPowerButton" mwt ci fuel).trace.resets
          = ["PushPowerButton"]) := by
  constructor
  · intro hps
    have hplan : Provider.computePlan "PushPowerButton" sys.PowerState
        = Plan.proceed "PushPowerButton" "Off" := by rw [hps]; decide
    refine ⟨hplan, ?_⟩
    rw [Provider.PowerOperation_proceed p "PushPowerButton" mwt ci fuel sys
      "PushPowerButton" "Off" hfetch hplan]
    cases hr : p.reset "PushPowerButton" with
    | none =>
      exact Provider.pollLoop_resets "Off" mwt ci p.polls sys.PowerState
        ["PushPowerButton"] fuel 0 0
    | some e => rfl
  · intro hps
    have hplan : Provider.computePlan "PushPowerButton" sys.PowerState
        = Plan.proceed "PushPowerButton" "On" := by rw [hps]; decide
    refine ⟨hplan, ?_⟩
    rw [Provider.PowerOperation_proceed p "PushPowerButton" mwt ci fuel sys
      "PushPowerButton" "On" hfetch hplan]
    cases hr : p.reset "PushPowerButton" with
    | none =>
      exact Provider.pollLoop_resets "On" mwt ci p.polls sys.PowerState
        ["PushPowerButton"] fuel 0 0
    | some e => rfl

/-- C6 witness. -/
theorem powerOperation_pushPowerButton_toggle_witness :
    Provider.computePlan "PushPowerButton" "On"
      = Plan.proceed "PushPowerButton" "Off"
    ∧ (Provider.PowerOperation
        ⟨SystemsResult.ok [⟨"On"⟩], fun _ => none,
          fun _ => SystemsResult.ok [⟨"Off"⟩]⟩ "PushPowerButton" 3 1 4).trace.resets
        = ["PushPowerButton"]
    ∧ Provider.computePlan "PushPowerButton" "Off"
      = Plan.proceed "PushPowerButton" "On" := by
  have h := powerOperation_pushPowerButton_toggle
    ⟨SystemsResult.ok [⟨"On"⟩], fun _ => none,
      fun _ => SystemsResult.ok [⟨"Off"⟩]⟩ 3 1 4 ⟨"On"⟩ rfl
  have h' := powerOperation_pushPowerButton_toggle
    ⟨SystemsResult.ok [⟨"Off"⟩], fun _ => none,
      fun _ => SystemsResult.ok [⟨"On"⟩]⟩ 3 1 4 ⟨"Off"⟩ rfl
  obtain ⟨h1, h2⟩ := h.1 rfl
  exact ⟨h1, h2, (h'.2 rfl).1⟩

/-- C10: with `checkInterval ≥ 1` the poll loop terminates within
`iterBound maximumWaitTime checkInterval` (the ceiling of
`maximumWaitTime / checkInterval`) iterations — that much fuel is never
exhausted; with `checkInterval = 0` and `maximumWaitTime > 0`, against a
system that never reports the target state, every amount of fuel is
exhausted: the loop does not terminate. -/
theorem powerOperation_poll_loop_termination :
    (∀ (tgt : String) (mwt ci : Int) (polls : Nat → SystemsResult)
        (outer : String) (issued : List String) (fuel : Nat),
      1 ≤ ci →
      mwt ≤ (iterBound mwt ci : Int) * ci
      ∧ (iterBound mwt ci ≤ fuel →
         ∀ tr, Provider.pollLoop tgt mwt ci polls outer issued 0 0 fuel
           ≠ ExecResult.nofuel tr))
    ∧
    (∀ (tgt : String) (mwt : Int) (polls : Nat → SystemsResult)
        (outer : String) (issued : List String),
      0 < mwt →
      (∀ i, ∃ s l, polls i = SystemsResult.ok (s :: l) ∧ s.PowerState ≠ tgt) →
      ∀ fuel, Provider.pollLoop tgt mwt 0 polls outer issued 0 0 fuel
        = ExecResult.nofuel ⟨issued, fuel⟩) := by
  constructor
  · intro tgt mwt ci polls outer issued fuel hci
    refine ⟨le_iterBound_mul mwt ci hci, ?_⟩
    intro hfuel tr
    apply Provider.pollLoop_not_nofuel tgt mwt ci polls outer issued fuel 0 0
    have h1 : (iterBound mwt ci : Int) * ci ≤ (fuel : Int) * ci :=
      mul_le_mul_of_nonneg_right (by exact_mod_cast hfuel) (by linarith)
    have h2 := le_iterBound_mul mwt ci hci
    have := le_trans h2 h1
    linarith
  · intro tgt mwt polls outer issued hm hnt fuel
    have h := Provider.pollLoop_zero_interval tgt mwt polls outer issued hnt
      fuel 0 0 hm
    simpa using h

/-- C10 witness. -/
theorem powerOperation_poll_loop_termination_witness :
    ((10 : Int) ≤ (iterBound 10 3 : Int) * 3
     ∧ Provider.pollLoop "On" 10 3 (fun _ => SystemsResult.ok [⟨"X"⟩])
         "Off" [] 0 0 4 ≠ ExecResult.nofuel ⟨[], 4⟩)
    ∧ Provider.pollLoop "On" 7 0 (fun _ => SystemsResult.ok [⟨"X"⟩])
        "Off" [] 0 0 100 = ExecResult.nofuel ⟨[], 100⟩ := by
  constructor
  · have h := powerOperation_poll_loop_termination.1 "On" 10 3
      (fun _ => SystemsResult.ok [⟨"X"⟩]) "Off" [] 4 (by norm_num)
    exact ⟨h.1, h.2 (by decide) ⟨[], 4⟩⟩
  · exact powerOperation_poll_loop_termination.2 "On" 7
      (fun _ => SystemsResult.ok [⟨"X"⟩]) "Off" [] (by norm_num)
      (fun i => ⟨⟨"X"⟩, [], rfl, by decide⟩) 100

/-- C8: after the fixed grace period, `checkServerStatus` returns nil as
soon as one reachability probe succeeds, and when no probe succeeds before
the overall timeout elapses it returns the connection error of the last
attempted probe. -/
theorem checkServerStatus_first_success_or_last_error :
    (∀ (env : Provider.ProbeEnv) (interval timeout : Int) (fuel j : Nat),
      env.parseErr = none →
      (∀ i, i < j → env.clock i < timeout ∧ ∃ e, env.probes i = some e) →
      env.clock j < timeout → env.probes j = none → j < fuel →
      Provider.checkServerStatus env interval timeout fuel = some none)
    ∧
    (∀ (env : Provider.ProbeEnv) (interval timeout : Int) (fuel K : Nat)
        (errs : Nat → String),
      env.parseErr = none →
      (∀ i, i < K → env.clock i < timeout ∧ env.probes i = some (errs i)) →
      ¬ env.clock K < timeout → 1 ≤ K → K ≤ fuel →
      Provider.checkServerStatus env interval timeout fuel
        = some (some (errs (K - 1)))) := by
  constructor
  · intro env interval timeout fuel j hparse hfail hcl hp hfuel
    unfold Provider.checkServerStatus
    rw [hparse]
    exact Provider.checkLoop_first_success timeout env.clock env.probes
      j 0 fuel none
      (by intro i hi; simpa using hfail i hi)
      (by simpa using hcl) (by simpa using hp) hfuel
  · intro env interval timeout fuel K errs hparse hfail hcl hK hfuel
    unfold Provider.checkServerStatus
    rw [hparse]
    have h := Provider.checkLoop_all_fail timeout env.clock env.probes errs
      K 0 fuel none
      (by intro i hi; simpa using hfail i hi)
      (by simpa using hcl) hfuel
    rw [h]
    have hKne : ¬ K = 0 := by omega
    simp only [hKne, if_false]
    rw [Nat.zero_add]

/-- C8 witness. -/
theorem checkServerStatus_first_success_or_last_error_witness :
    Provider.checkServerStatus
        ⟨none, fun k => (k : Int),
          fun k => if k = 0 then some "refused" else none⟩ 2 10 3
      = some none
    ∧ Provider.checkServerStatus
        ⟨none, fun k => (k : Int), fun _ => some "refused"⟩ 2 2 2
      = some (some "refused") := by
  constructor
  · exact checkServerStatus_first_success_or_last_error.1 _ 2 10 3 1 rfl
      (by
        intro i hi
        have h0 : i = 0 := by omega
        subst h0
        refine ⟨?_, "refused", rfl⟩
        show ((0 : Nat) : Int) < 10
        norm_num)
      (by show ((1 : Nat) : Int) < 10; norm_num) rfl (by omega)
  · exact checkServerStatus_first_success_or_last_error.2 _ 2 2 2 2
      (fun _ => "refused") rfl
      (by
        intro i hi
        refine ⟨?_, rfl⟩
        show (i : Int) < 2
        exact_mod_cast hi)
      (by show ¬ ((2 : Nat) : Int) < 2; norm_num) (by omega) (by omega)

/-- C1 (failing input): a run of `powerOperator.PowerOperation` whose reset
succeeds and whose every poll observes the non-target state
`"PoweringOn"` exhausts `maximumWaitTime = 2` (two iterations at
`checkInterval = 1`) and returns the *pre-operation* state `"Off"` — the
`PowerState` of the stale outer handle, since the loop-local
`system, err := ...` shadows it — with a nil error, not the last-observed
state `"PoweringOn"`. -/
theorem powerOperation_timeout_returns_preop_state :
    Provider.PowerOperation
        ⟨SystemsResult.ok [⟨"Off"⟩], fun _ => none,
          fun _ => SystemsResult.ok [⟨"PoweringOn"⟩]⟩ "On" 2 1 5
      = ExecResult.ret "Off" none ⟨["On"], 2⟩
    ∧ (∀ i : Nat, (⟨SystemsResult.ok [⟨"Off"⟩], fun _ => none,
          fun _ => SystemsResult.ok [⟨"PoweringOn"⟩]⟩ : Service).polls i
        = SystemsResult.ok [⟨"PoweringOn"⟩])
    ∧ ("PoweringOn" : String) ≠ "Off" :=
  ⟨by decide, fun i => rfl, by decide⟩

/-- C2 (failing input): for every restart reset type issued while the
server is `Off`, `powerOperator.PowerOperation`'s `if` chain rewrites the
issued action to `On` but leaves `targetPowerState` as the Go zero value
`""`, not `"On"`: the restart branch assigns the target only in its `else`
arm. -/
theorem powerOperation_restart_from_off_empty_target :
    Provider.computePlan "ForceRestart" "Off" = Plan.proceed "On" ""
    ∧ Provider.computePlan "GracefulRestart" "Off" = Plan.proceed "On" ""
    ∧ Provider.computePlan "PowerCycle" "Off" = Plan.proceed "On" ""
    ∧ Provider.computePlan "Nmi" "Off" = Plan.proceed "On" ""
    ∧ ("" : String) ≠ "On" :=
  ⟨by decide, by decide, by decide, by decide, by decide⟩

/-- C9 (failing input): in the redfish-package `PowerOperation`, a failing
mid-poll re-fetch yields the pair (nil handle, error) — as the first
conjunct shows — and the error branch then reads `PowerState` from that
nil handle: the run crashes with a nil-pointer dereference during its first
poll iteration instead of returning. -/
theorem redfishPkg_midpoll_failure_nil_dereference :
    RedfishPkg.getSystemResource (SystemsResult.err "connection refused")
      = (none, some "connection refused")
    ∧ RedfishPkg.PowerOperation
        ⟨SystemsResult.ok [⟨"On"⟩], fun _ => none,
          fun _ => SystemsResult.err "connection refused"⟩ "ForceOff" 10 1 5
      = ExecResult.crash ⟨["ForceOff"], 1⟩ :=
  ⟨rfl, by decide⟩
